import Mathlib

/-!
# Verification of the Spotify House Player core (src/app.js)

A shallow embedding of the account/credential lifecycle manager and the
player-instance registry of `src/app.js`.  Each Express handler is modelled
as a pure function from the server state (the in-memory `accounts` table,
the in-memory `playerInstances` map, and the last snapshot written to
`tokens.json`) and its request inputs to a result and a new state.  The
outcomes of external I/O (the OAuth token endpoint, puppeteer launch,
`browser.close()`) are passed in as explicit `Except` arguments, and clock
reads (`Date.now()`) as explicit integer arguments (milliseconds).
-/

namespace HousePlayer

/-- A JSON value, as produced by `response.json()` and consumed by
`JSON.parse`/`JSON.stringify`.  Numbers are modelled as integers
(millisecond timestamps and `expires_in` second counts). -/
inductive Json where
  | null : Json
  | bool (b : Bool) : Json
  | num (n : Int) : Json
  | str (s : String) : Json
  | arr (xs : List Json) : Json
  | obj (fields : List (String × Json)) : Json
deriving Repr

/-- Property read `j[k]` on a JSON value: only objects yield fields
(`none` models JavaScript `undefined`). -/
def jsonField (j : Json) (k : String) : Option Json :=
  match j with
  | .obj fields => (fields.find? (fun p => p.1 == k)).map Prod.snd
  | _ => none

/-- Evaluation of `typeof v === 'string' ? v : null` on an optional JSON value
(`none` is an absent field, i.e. `undefined`). -/
def asString : Option Json → Option String
  | some (.str s) => some s
  | _ => none

/-- JavaScript truthiness of a nullable string field
(`null`/`undefined` and the empty string are falsy). -/
def strTruthy : Option String → Bool
  | none => false
  | some s => s ≠ ""

/-- JavaScript truthiness of a nullable numeric field
(`null`/`undefined` and `0` are falsy). -/
def numTruthy : Option Int → Bool
  | none => false
  | some n => n ≠ 0

/-- JavaScript `x || d` for a nullable string `x` with default `d`. -/
def jsOr (x : Option String) (d : String) : String :=
  match x with
  | some s => if s = "" then d else s
  | none => d

/-- One record of the `accounts` table (src/app.js lines 74-82 create it;
the callback and refresh handlers update it).  `expiresAt` is absent until
the first successful code exchange. -/
structure Account where
  name : String
  clientId : String
  clientSecret : String
  redirectUri : String
  authenticated : Bool
  token : Option String
  refreshToken : Option String
  expiresAt : Option Int
deriving Repr, DecidableEq

/-- The `accounts` object: a string-keyed map, modelled as an association
list in insertion order (JavaScript objects preserve insertion order). -/
abbrev AccountTable := List (String × Account)

/-- One `playerInstances` entry: the opaque browser handle plus the metadata
stored at launch (src/app.js lines 274-279). -/
structure PlayerInstance where
  browser : Nat
  audioDestination : String
  displayName : String
  launchedAt : Int
deriving Repr, DecidableEq

/-- The `playerInstances` Map, also keyed by account name. -/
abbrev Registry := List (String × PlayerInstance)

/-- Key lookup in a string-keyed map. -/
def getEntry {α : Type} (l : List (String × α)) (k : String) : Option α :=
  match l with
  | [] => none
  | (k0, v0) :: rest => if k0 = k then some v0 else getEntry rest k

/-- Key assignment `m[k] = v` / `Map.set`: replace in place if present,
append otherwise. -/
def setEntry {α : Type} (l : List (String × α)) (k : String) (v : α) :
    List (String × α) :=
  match l with
  | [] => [(k, v)]
  | (k0, v0) :: rest =>
      if k0 = k then (k, v) :: rest else (k0, v0) :: setEntry rest k v

/-- Key removal `Map.delete`: remove the entry for `k`. -/
def delEntry {α : Type} (l : List (String × α)) (k : String) :
    List (String × α) :=
  match l with
  | [] => []
  | (k0, v0) :: rest => if k0 = k then rest else (k0, v0) :: delEntry rest k

/-- Serialization of a nullable string field by `JSON.stringify`
(an explicit `null` is written out, as for `token`/`refreshToken`). -/
def encodeOptStr : Option String → Json
  | none => .null
  | some s => .str s

/-- Inverse of `encodeOptStr` under `JSON.parse`. -/
def decodeOptStr : Json → Option (Option String)
  | .null => some none
  | .str s => some (some s)
  | _ => none

/-- Serialization by `JSON.stringify` of one account record.  The key order is the object's
insertion order: the seven fields written at registration, with
`expiresAt` appended (only) once a code exchange or refresh has set it —
`JSON.stringify` omits a key that was never assigned. -/
def encodeAccount (a : Account) : Json :=
  .obj ([("name", .str a.name), ("clientId", .str a.clientId),
    ("clientSecret", .str a.clientSecret), ("redirectUri", .str a.redirectUri),
    ("authenticated", .bool a.authenticated), ("token", encodeOptStr a.token),
    ("refreshToken", encodeOptStr a.refreshToken)] ++
    (match a.expiresAt with
     | none => []
     | some n => [("expiresAt", .num n)]))

/-- Parse (`JSON.parse`) of one account record in the format `saveTokens` writes. -/
def decodeAccount : Json → Option Account
  | .obj [("name", .str n), ("clientId", .str ci), ("clientSecret", .str cs),
      ("redirectUri", .str ru), ("authenticated", .bool au), ("token", tj),
      ("refreshToken", rj)] => do
      let t ← decodeOptStr tj
      let r ← decodeOptStr rj
      pure ⟨n, ci, cs, ru, au, t, r, none⟩
  | .obj [("name", .str n), ("clientId", .str ci), ("clientSecret", .str cs),
      ("redirectUri", .str ru), ("authenticated", .bool au), ("token", tj),
      ("refreshToken", rj), ("expiresAt", .num e)] => do
      let t ← decodeOptStr tj
      let r ← decodeOptStr rj
      pure ⟨n, ci, cs, ru, au, t, r, some e⟩
  | _ => none

/-- Serialization `JSON.stringify(accounts)` (src/app.js line 51): the whole table as one
object, one key per account. -/
def encodeAccounts (t : AccountTable) : Json :=
  .obj (t.map (fun p => (p.1, encodeAccount p.2)))

/-- Decoding every entry of the store object, in order. -/
def decodeAccountList : List (String × Json) → Option AccountTable
  | [] => some []
  | (k, j) :: rest => do
      let a ← decodeAccount j
      let tl ← decodeAccountList rest
      pure ((k, a) :: tl)

/-- Decoding the whole table from a store file in the format
`saveTokens` writes. -/
def decodeAccounts : Json → Option AccountTable
  | .obj fields => decodeAccountList fields
  | _ => none

/-- Startup load (src/app.js lines 40-47): a malformed store resets to an
empty table rather than failing. -/
def loadTokens (j : Json) : AccountTable :=
  (decodeAccounts j).getD []

/-- The whole server state: the `accounts` object, the `playerInstances`
Map and the current content of `tokens.json` (rewritten wholesale by
`saveTokens` on every mutation). -/
structure ServerState where
  accounts : AccountTable
  playerInstances : Registry
  tokensFile : Json
deriving Repr

/-- The function `saveTokens()` (src/app.js lines 50-52): snapshot the account table to
the store file. -/
def saveTokens (st : ServerState) : ServerState :=
  { st with tokensFile := encodeAccounts st.accounts }

/-- Body of `POST /api/accounts`; each field may be absent. -/
structure RegisterReq where
  name : Option String
  clientId : Option String
  clientSecret : Option String
  redirectUri : Option String
deriving Repr, DecidableEq

/-- Outcome of `POST /api/accounts`, by HTTP status. -/
inductive RegisterResult where
  | validationError : RegisterResult
  | duplicateAccount : RegisterResult
  | ok : RegisterResult
deriving Repr, DecidableEq

/-- Handler for `POST /api/accounts` (src/app.js lines 62-95): validate presence of
`name`/`clientId`/`clientSecret` (JavaScript truthiness), reject a
duplicate name with 409, otherwise insert the unauthenticated record and
persist. -/
def registerAccount (st : ServerState) (req : RegisterReq) :
    RegisterResult × ServerState :=
  if ¬ (strTruthy req.name ∧ strTruthy req.clientId ∧ strTruthy req.clientSecret)
  then (.validationError, st)
  else
    let name := req.name.getD ""
    if (getEntry st.accounts name).isSome then (.duplicateAccount, st)
    else
      let acct : Account :=
        { name := name
          clientId := req.clientId.getD ""
          clientSecret := req.clientSecret.getD ""
          redirectUri := jsOr req.redirectUri "http://localhost:3000/callback"
          authenticated := false
          token := none
          refreshToken := none
          expiresAt := none }
      (.ok, saveTokens { st with accounts := setEntry st.accounts name acct })

/-- Whether a JSON value is `null`: reading a property of it throws a
TypeError in JavaScript. -/
def isNullJson : Json → Bool
  | .null => true
  | _ => false

/-- Validation `tokenData && typeof tokenData.access_token === 'string'
? tokenData.access_token : null` (src/app.js lines 163 and 212). -/
def validAccessToken (td : Json) : Option String :=
  asString (jsonField td "access_token")

/-- Validation `tokenData && typeof tokenData.expires_in === 'number'
? tokenData.expires_in : 3600` (src/app.js lines 164 and 214). -/
def validExpiresIn (td : Json) : Int :=
  match jsonField td "expires_in" with
  | some (.num n) => n
  | _ => 3600

/-- Conditional update `if (tokenData.refresh_token && typeof tokenData.refresh_token ===
'string')` then replace, else keep the old value (src/app.js lines
173-175): only a non-empty string field replaces the stored refresh
token. -/
def refreshTokenUpdate (td : Json) (old : Option String) : Option String :=
  match jsonField td "refresh_token" with
  | some (.str s) => if s ≠ "" then some s else old
  | _ => old

/-- Outcome of `GET /api/accounts/:name/token`, by HTTP status and body. -/
inductive TokenResult where
  | notFound : TokenResult
  | notAuthenticated : TokenResult
  | noRefreshToken : TokenResult
  | refreshFailed (detail : String) : TokenResult
  | ok (token : Option String) : TokenResult
deriving Repr, DecidableEq

/-- Handler for `GET /api/accounts/:name/token` (src/app.js lines 133-188).
`now` is `Date.now()` read at line 146 for the freshness check; `now2` is
the `Date.now()` at line 169, after the refresh round-trip resolved.
`refreshOutcome` is the result of `refreshAccessToken`: `.error` when the
upstream call rejects (non-success HTTP status or transport failure),
`.ok` carrying the parsed JSON body otherwise; it is consulted only if a
refresh is attempted.  When the parsed body is JSON `null`, line 173
(`tokenData.refresh_token`) throws a TypeError after the line-166 record
update already happened: the handler answers 500 with the in-memory
record mutated but not persisted. -/
def getToken (st : ServerState) (name : String) (now now2 : Int)
    (refreshOutcome : Except String Json) : TokenResult × ServerState :=
  match getEntry st.accounts name with
  | none => (.notFound, st)
  | some account =>
    if ¬ (account.authenticated ∧ strTruthy account.token)
    then (.notAuthenticated, st)
    else
      let bufferTime : Int := 5 * 60 * 1000
      if numTruthy account.expiresAt ∧ now + bufferTime ≥ account.expiresAt.getD 0
      then
        if ¬ strTruthy account.refreshToken then (.noRefreshToken, st)
        else
          match refreshOutcome with
          | .error msg => (.refreshFailed msg, st)
          | .ok tokenData =>
            let updated :=
              { account with
                  token := validAccessToken tokenData
                  expiresAt := some (now2 + validExpiresIn tokenData * 1000) }
            if isNullJson tokenData then
              (.refreshFailed "TypeError",
               { st with accounts := setEntry st.accounts name updated })
            else
              let updated2 :=
                { updated with
                    refreshToken := refreshTokenUpdate tokenData account.refreshToken }
              (.ok (validAccessToken tokenData),
               saveTokens { st with accounts := setEntry st.accounts name updated2 })
      else (.ok account.token, st)

/-- Outcome of `GET /callback`. -/
inductive CallbackResult where
  | invalidParams : CallbackResult
  | exchangeFailed (detail : String) : CallbackResult
  | ok : CallbackResult
deriving Repr, DecidableEq

/-- Handler for `GET /callback?code=...&state=...` (src/app.js lines 194-246).
`exchangeOutcome` is the result of `exchangeCodeForToken`; `now` is the
`Date.now()` at line 222.  On success the record is replaced with the
validated token fields, `authenticated` set to true, and persisted.
Unlike the refresh path, the `refresh_token` field here has no truthiness
pre-check: `typeof === 'string' ? value : null` (line 213). -/
def callback (st : ServerState) (code state : Option String) (now : Int)
    (exchangeOutcome : Except String Json) : CallbackResult × ServerState :=
  if ¬ (strTruthy code ∧ strTruthy state) then (.invalidParams, st)
  else
    let accountName := state.getD ""
    match getEntry st.accounts accountName with
    | none => (.invalidParams, st)
    | some account =>
      match exchangeOutcome with
      | .error msg => (.exchangeFailed msg, st)
      | .ok tokenData =>
        let updated :=
          { account with
              token := validAccessToken tokenData
              refreshToken := asString (jsonField tokenData "refresh_token")
              authenticated := true
              expiresAt := some (now + validExpiresIn tokenData * 1000) }
        (.ok, saveTokens { st with accounts := setEntry st.accounts accountName updated })

/-- Outcome of `POST /api/players/:name/launch`. -/
inductive LaunchResult where
  | accountNotFound : LaunchResult
  | notAuthenticated : LaunchResult
  | alreadyRunning : LaunchResult
  | launchFailed (detail : String) : LaunchResult
  | ok : LaunchResult
deriving Repr, DecidableEq

/-- Handler for `POST /api/players/:name/launch` (src/app.js lines 253-291).  Checks,
in order: the account exists (404); `account.authenticated` and a truthy
`account.token` (400); no registry entry (409).  It then starts the
external process with the *stored* token — there is no freshness check and
no refresh here.  `launchOutcome` is the result of `launchPlayerInstance`
(the browser handle, or the thrown error); `launchedAt` is the
`new Date()` at line 278. -/
def launchPlayer (st : ServerState) (name : String)
    (displayName audioDestination : Option String) (launchedAt : Int)
    (launchOutcome : Except String Nat) : LaunchResult × ServerState :=
  match getEntry st.accounts name with
  | none => (.accountNotFound, st)
  | some account =>
    if ¬ (account.authenticated ∧ strTruthy account.token)
    then (.notAuthenticated, st)
    else if (getEntry st.playerInstances name).isSome then (.alreadyRunning, st)
    else
      match launchOutcome with
      | .error msg => (.launchFailed msg, st)
      | .ok browser =>
        let inst : PlayerInstance :=
          { browser := browser
            audioDestination := jsOr audioDestination "default"
            displayName := jsOr displayName name
            launchedAt := launchedAt }
        (.ok, { st with playerInstances := setEntry st.playerInstances name inst })

/-- Outcome of `DELETE /api/players/:name`. -/
inductive StopResult where
  | notRunning : StopResult
  | stopFailed (detail : String) : StopResult
  | ok : StopResult
deriving Repr, DecidableEq

/-- Handler for `DELETE /api/players/:name` (src/app.js lines 297-314).  404 when no
entry exists.  Otherwise `await instance.browser.close()` runs first: if
it throws (`closeOutcome = .error`), control jumps to the catch block and
`playerInstances.delete(name)` is never reached — the entry stays in the
registry.  Only a successful close deletes the entry. -/
def stopPlayer (st : ServerState) (name : String)
    (closeOutcome : Except String Unit) : StopResult × ServerState :=
  if ¬ (getEntry st.playerInstances name).isSome then (.notRunning, st)
  else
    match closeOutcome with
    | .error msg => (.stopFailed msg, st)
    | .ok _ => (.ok, { st with playerInstances := delEntry st.playerInstances name })

/-! ## Concrete states used in counterexamples and witnesses -/

/-- The state at startup with no `tokens.json` on disk. -/
def emptyState : ServerState := ⟨[], [], .obj []⟩

/-- A well-formed registration request. -/
def kitchenReq : RegisterReq := ⟨some "kitchen", some "X", some "Y", none⟩

/-- The state after registering `kitchen`. -/
def stRegistered : ServerState := (registerAccount emptyState kitchenReq).2

/-- The record that registering `kitchen` creates. -/
def kitchenAccount : Account :=
  ⟨"kitchen", "X", "Y", "http://localhost:3000/callback", false, none, none,
   none⟩

/-- An authenticated account whose token is stale (`expiresAt` long past)
and that has no refresh token stored. -/
def accountStale : Account :=
  ⟨"a", "ci", "cs", "ru", true, some "tok", none, some 1⟩

/-- An authenticated account with no `expiresAt` field at all. -/
def accountNoExpiry : Account :=
  ⟨"a", "ci", "cs", "ru", true, some "tok", none, none⟩

/-- An authenticated account with a fresh token and a refresh token. -/
def accountFresh : Account :=
  ⟨"a", "ci", "cs", "ru", true, some "tok", some "rt", some 1000000000⟩

/-- An authenticated account with a stale token and a refresh token. -/
def accountStaleRT : Account :=
  ⟨"a", "ci", "cs", "ru", true, some "tok", some "rt", some 1⟩

/-- Server state holding only the stale account. -/
def stStale : ServerState := ⟨[("a", accountStale)], [], .obj []⟩

/-- Server state holding only the stale account with a refresh token. -/
def stStaleRT : ServerState := ⟨[("a", accountStaleRT)], [], .obj []⟩

/-- Server state holding only the account without `expiresAt`. -/
def stNoExpiry : ServerState := ⟨[("a", accountNoExpiry)], [], .obj []⟩

/-- A registry entry as created by a launch. -/
def instA : PlayerInstance := ⟨7, "default", "a", 5⟩

/-- Server state with the fresh account and a running player for it. -/
def stRunning : ServerState := ⟨[("a", accountFresh)], [("a", instA)], .obj []⟩

/-- A 200-status exchange response whose `access_token` is not a string. -/
def badExchangeResp : Json :=
  .obj [("access_token", .num 42), ("expires_in", .num 3600)]

/-- A well-formed refresh response that omits `refresh_token`. -/
def refreshRespNoRT : Json :=
  .obj [("access_token", .str "tok2"), ("expires_in", .num 7200)]

/-- A fully well-formed exchange/refresh response. -/
def goodExchangeResp : Json :=
  .obj [("access_token", .str "tok2"), ("refresh_token", .str "rt2"),
    ("expires_in", .num 7200)]

/-! ## Association-map lemmas -/

theorem getEntry_setEntry_self {α : Type} (l : List (String × α)) (k : String)
    (v : α) : getEntry (setEntry l k v) k = some v := by
  induction l with
  | nil => simp [setEntry, getEntry]
  | cons hd tl ih =>
    by_cases h : hd.1 = k
    · simp [setEntry, getEntry, h]
    · simp [setEntry, getEntry, h, ih]

theorem getEntry_setEntry_ne {α : Type} (l : List (String × α)) (k k' : String)
    (v : α) (h : k' ≠ k) : getEntry (setEntry l k v) k' = getEntry l k' := by
  induction l with
  | nil => simp [setEntry, getEntry, Ne.symm h]
  | cons hd tl ih =>
    by_cases hk : hd.1 = k
    · simp [setEntry, getEntry, hk, Ne.symm h]
    · simp only [setEntry, hk, if_false, getEntry]
      by_cases hk' : hd.1 = k'
      · simp [getEntry, hk']
      · simp [getEntry, hk', ih]

theorem getEntry_eq_none_iff {α : Type} (l : List (String × α)) (k : String) :
    getEntry l k = none ↔ k ∉ l.map Prod.fst := by
  induction l with
  | nil => simp [getEntry]
  | cons hd tl ih =>
    simp only [getEntry, List.map_cons, List.mem_cons]
    by_cases h : hd.1 = k
    · simp [h]
    · simp [h, ih, Ne.symm h]

theorem setEntry_keys_of_absent {α : Type} (l : List (String × α)) (k : String)
    (v : α) (h : getEntry l k = none) :
    (setEntry l k v).map Prod.fst = l.map Prod.fst ++ [k] := by
  induction l with
  | nil => simp [setEntry]
  | cons hd tl ih =>
    by_cases hk : hd.1 = k
    · simp [getEntry, hk] at h
    · simp only [getEntry, hk, if_false] at h
      simp [setEntry, hk, ih h]

theorem nodup_setEntry_of_absent {α : Type} (l : List (String × α)) (k : String)
    (v : α) (h : getEntry l k = none) (hn : (l.map Prod.fst).Nodup) :
    ((setEntry l k v).map Prod.fst).Nodup := by
  rw [setEntry_keys_of_absent l k v h]
  have hk : k ∉ l.map Prod.fst := (getEntry_eq_none_iff l k).mp h
  simp [List.nodup_append, hn, hk]

theorem getEntry_delEntry_self {α : Type} (l : List (String × α)) (k : String)
    (hn : (l.map Prod.fst).Nodup) : getEntry (delEntry l k) k = none := by
  induction l with
  | nil => simp [delEntry, getEntry]
  | cons hd tl ih =>
    simp only [List.map_cons, List.nodup_cons] at hn
    by_cases h : hd.1 = k
    · subst h
      simp only [delEntry, if_pos rfl]
      exact (getEntry_eq_none_iff tl hd.1).mpr hn.1
    · simp [delEntry, getEntry, h, ih hn.2]

/-! ## Round-trip lemmas for the persistence format -/

theorem decodeOptStr_encodeOptStr (o : Option String) :
    decodeOptStr (encodeOptStr o) = some o := by
  cases o <;> rfl

theorem decodeAccount_encodeAccount (a : Account) :
    decodeAccount (encodeAccount a) = some a := by
  obtain ⟨n, ci, cs, ru, au, t, r, e⟩ := a
  cases e <;>
    simp [encodeAccount, decodeAccount, decodeOptStr_encodeOptStr, Option.bind]

theorem decodeAccounts_encodeAccounts (t : AccountTable) :
    decodeAccounts (encodeAccounts t) = some t := by
  induction t with
  | nil => rfl
  | cons hd tl ih =>
    simp only [encodeAccounts, decodeAccounts, List.map_cons,
      decodeAccountList] at *
    simp [decodeAccount_encodeAccount, ih]

/-! ## Claim theorems -/

/-- C9: persisting the credential store (`saveTokens` writes
`JSON.stringify(accounts)` to `tokens.json`) and then reloading the
resulting well-formed store file reproduces an identical account table,
field for field: save followed by load is the identity. -/
theorem save_load_roundtrip : ∀ st : ServerState,
    loadTokens (saveTokens st).tokensFile = st.accounts ∧
    decodeAccounts (encodeAccounts st.accounts) = some st.accounts := by
  intro st
  refine ⟨?_, decodeAccounts_encodeAccounts st.accounts⟩
  simp [saveTokens, loadTokens, decodeAccounts_encodeAccounts]

/-- C10: a registration request in which `name`, `clientId` or
`clientSecret` is absent fails with the validation error and leaves the
whole server state — the in-memory account table and the persisted store
file — unchanged. -/
theorem register_missing_field_unchanged :
    ∀ (st : ServerState) (req : RegisterReq),
    req.name = none ∨ req.clientId = none ∨ req.clientSecret = none →
    (registerAccount st req).1 = RegisterResult.validationError ∧
    (registerAccount st req).2 = st := by
  intro st req h
  have hv : ¬ (strTruthy req.name ∧ strTruthy req.clientId ∧
      strTruthy req.clientSecret) := by
    rcases h with h | h | h <;> simp [h, strTruthy]
  simp [registerAccount, hv]

/-- Witness for C10 at a concrete request with `name` absent. -/
theorem register_missing_field_unchanged_witness :
    (registerAccount emptyState ⟨none, some "X", some "Y", none⟩).1 =
      RegisterResult.validationError ∧
    (registerAccount emptyState ⟨none, some "X", some "Y", none⟩).2 =
      emptyState :=
  register_missing_field_unchanged emptyState ⟨none, some "X", some "Y", none⟩
    (Or.inl rfl)

/-- C2 counterexample: on a state with a running player for `a`, a stop
whose `browser.close()` throws answers 500 StopFailed and the registry
STILL contains the entry for `a` — `playerInstances.delete` is on the
line after the `await` that threw, so it is never reached.  The claim
says the entry is removed unconditionally once termination is
attempted. -/
theorem stop_error_keeps_entry :
    (getEntry stRunning.playerInstances "a").isSome = true ∧
    (stopPlayer stRunning "a" (Except.error "boom")).1 =
      StopResult.stopFailed "boom" ∧
    getEntry (stopPlayer stRunning "a"
      (Except.error "boom")).2.playerInstances "a" = some instA :=
  ⟨rfl, rfl, rfl⟩

/-- C2 (amended): for an existing registry entry, stop removes the entry
only when the termination attempt succeeds; when `browser.close()`
reports an error the handler answers StopFailed and the state — the entry
included — is unchanged. -/
theorem stop_removes_entry_only_on_close_success :
    ∀ (st : ServerState) (name : String) (co : Except String Unit),
    (getEntry st.playerInstances name).isSome = true →
    ((∀ msg, co = Except.error msg →
        (stopPlayer st name co).1 = StopResult.stopFailed msg ∧
        (stopPlayer st name co).2 = st) ∧
     (co = Except.ok () →
        (stopPlayer st name co).1 = StopResult.ok ∧
        ((st.playerInstances.map Prod.fst).Nodup →
          getEntry (stopPlayer st name co).2.playerInstances name = none))) := by
  intro st name co h
  constructor
  · intro msg hco
    subst hco
    simp [stopPlayer, h]
  · intro hco
    subst hco
    refine ⟨by simp [stopPlayer, h], fun hn => ?_⟩
    simp [stopPlayer, h, getEntry_delEntry_self _ _ hn]

/-- Witness for C2 (amended) at the concrete running state, both for a
failing and for a succeeding close. -/
theorem stop_removes_entry_only_on_close_success_witness :
    ((stopPlayer stRunning "a" (Except.error "boom")).2 = stRunning ∧
     getEntry (stopPlayer stRunning "a"
       (Except.ok ())).2.playerInstances "a" = none) := by
  have h := stop_removes_entry_only_on_close_success stRunning "a"
  refine ⟨((h (Except.error "boom") rfl).1 "boom" rfl).2, ?_⟩
  exact ((h (Except.ok ()) rfl).2 rfl).2 (by decide)

/-- C3 (code bug): the spec invariant `authenticated == true` implies
`token != null` is broken by the callback: a 200-status exchange response
whose `access_token` is not a string (here the number 42) is "validated"
to `null` and stored with `authenticated: true`. -/
theorem callback_breaks_auth_token_invariant :
    (callback stRegistered (some "c") (some "kitchen") 0
        (Except.ok badExchangeResp)).1 = CallbackResult.ok ∧
    (getEntry (callback stRegistered (some "c") (some "kitchen") 0
        (Except.ok badExchangeResp)).2.accounts "kitchen").map
      (fun a => (a.authenticated, a.token)) = some (true, none) :=
  ⟨rfl, rfl⟩

/-- C6: after any registration attempt, account-name uniqueness is
preserved, no existing record is ever overwritten, and a well-formed
registration under a name that is already present always fails with
DuplicateAccount and leaves the whole state unchanged. -/
theorem register_duplicate_fails_no_overwrite :
    ∀ (st : ServerState) (req : RegisterReq),
    (((st.accounts.map Prod.fst).Nodup →
        ((registerAccount st req).2.accounts.map Prod.fst).Nodup) ∧
     ∀ (n : String) (a : Account), getEntry st.accounts n = some a →
       (getEntry (registerAccount st req).2.accounts n = some a ∧
        (req.name = some n → n ≠ "" → strTruthy req.clientId = true →
         strTruthy req.clientSecret = true →
         (registerAccount st req).1 = RegisterResult.duplicateAccount ∧
         (registerAccount st req).2 = st))) := by
  intro st req
  by_cases hv : strTruthy req.name ∧ strTruthy req.clientId ∧
      strTruthy req.clientSecret
  · by_cases hd : getEntry st.accounts (req.name.getD "") = none
    · -- fresh name: the record is appended, others untouched
      constructor
      · intro hn
        simp only [registerAccount, hv.1, hv.2.1, hv.2.2, hd, saveTokens]
        simp only [and_self, not_true_eq_false, if_false, Option.isSome_none,
          Bool.false_eq_true]
        exact nodup_setEntry_of_absent st.accounts _ _ hd hn
      · intro n a ha
        have hne : n ≠ req.name.getD "" := by
          intro hh
          rw [hh, hd] at ha
          cases ha
        constructor
        · simp only [registerAccount, hv.1, hv.2.1, hv.2.2, hd, saveTokens]
          simp only [and_self, not_true_eq_false, if_false, Option.isSome_none,
            Bool.false_eq_true]
          rw [getEntry_setEntry_ne st.accounts _ n _ hne]
          exact ha
        · intro hn _ _ _
          exfalso
          rw [hn] at hd
          simp only [Option.getD_some] at hd
          rw [hd] at ha
          cases ha
    · -- duplicate name: request refused, state untouched
      have hs : (getEntry st.accounts (req.name.getD "")).isSome = true := by
        cases hg : getEntry st.accounts (req.name.getD "") with
        | none => exact absurd hg hd
        | some _ => rfl
      constructor
      · intro hn
        simpa [registerAccount, hv, hs] using hn
      · intro n a ha
        exact ⟨by simp [registerAccount, hv, hs, ha],
          fun _ _ _ _ => by simp [registerAccount, hv, hs]⟩
  · -- validation failure: state untouched, and a well-formed duplicate
    -- request contradicts the failed validation
    constructor
    · intro hn
      simpa [registerAccount, hv] using hn
    · intro n a ha
      refine ⟨by simp [registerAccount, hv, ha], ?_⟩
      intro hn hne hci hcs
      exfalso
      exact hv ⟨by simp [hn, strTruthy, hne], hci, hcs⟩

/-- Witness for C6: re-registering `kitchen` on the state that already
holds it is refused with DuplicateAccount and changes nothing. -/
theorem register_duplicate_fails_no_overwrite_witness :
    (registerAccount stRegistered kitchenReq).1 =
      RegisterResult.duplicateAccount ∧
    (registerAccount stRegistered kitchenReq).2 = stRegistered := by
  have h := (register_duplicate_fails_no_overwrite stRegistered kitchenReq).2
    "kitchen" kitchenAccount rfl
  exact h.2 rfl (by decide) (by decide) (by decide)

theorem isNullJson_eq_false {td : Json} (h : td ≠ Json.null) :
    isNullJson td = false := by
  cases td with
  | null => exact absurd rfl h
  | _ => rfl

/-- C4: when the upstream refresh call rejects, the token endpoint leaves
the whole server state unchanged — `token`, `expiresAt` and
`refreshToken` keep their pre-attempt values and nothing is persisted —
and on the path where the refresh really was attempted it answers 500
RefreshFailed. -/
theorem refresh_failure_leaves_state_unchanged :
    ∀ (st : ServerState) (name : String) (now now2 : Int) (msg : String),
    (getToken st name now now2 (Except.error msg)).2 = st ∧
    (∀ a, getEntry st.accounts name = some a →
      a.authenticated = true → strTruthy a.token = true →
      numTruthy a.expiresAt = true → now + 300000 ≥ a.expiresAt.getD 0 →
      strTruthy a.refreshToken = true →
      (getToken st name now now2 (Except.error msg)).1 =
        TokenResult.refreshFailed msg) := by
  intro st name now now2 msg
  constructor
  · cases hg : getEntry st.accounts name with
    | none => simp [getToken, hg]
    | some a =>
      by_cases hauth : a.authenticated = true ∧ strTruthy a.token = true
      · by_cases hfresh : numTruthy a.expiresAt = true ∧
            now + 300000 ≥ a.expiresAt.getD 0
        · by_cases hrt : strTruthy a.refreshToken = true
          · simp [getToken, hg, hauth.1, hauth.2, hfresh.1, hfresh.2, hrt]
          · simp [getToken, hg, hauth.1, hauth.2, hfresh.1, hfresh.2, hrt]
        · simp [getToken, hg, hauth.1, hauth.2, hfresh]
      · simp [getToken, hg, hauth]
  · intro a hg hauth htok hexp hge hrt
    simp [getToken, hg, hauth, htok, hexp, hge, hrt]

/-- Witness for C4 at a stale account with a refresh token, against a
rejecting upstream. -/
theorem refresh_failure_leaves_state_unchanged_witness :
    (getToken stStaleRT "a" 1000 1000 (Except.error "down")).2 = stStaleRT ∧
    (getToken stStaleRT "a" 1000 1000 (Except.error "down")).1 =
      TokenResult.refreshFailed "down" := by
  have h := refresh_failure_leaves_state_unchanged stStaleRT "a" 1000 1000 "down"
  exact ⟨h.1, h.2 accountStaleRT rfl rfl (by decide) (by decide) (by decide)
    (by decide)⟩

/-- C5 counterexample: an authenticated account whose `expiresAt` was
never set (and that has no refresh token) gets its stored token back
unchanged with NO refresh attempt — the JavaScript truthiness check
`account.expiresAt && ...` short-circuits — even at an arbitrarily late
`now`, where the claim demands a refresh attempt and a NoRefreshToken
failure. -/
theorem token_returned_without_refresh_despite_no_deadline :
    accountNoExpiry.expiresAt = none ∧
    accountNoExpiry.refreshToken = none ∧
    (getToken stNoExpiry "a" 999999999999 999999999999
        (Except.error "refusal")).1 = TokenResult.ok (some "tok") ∧
    (getToken stNoExpiry "a" 999999999999 999999999999
        (Except.error "refusal")).2 = stNoExpiry :=
  ⟨rfl, rfl, rfl, rfl⟩

/-- C5 (amended): for an authenticated account with a truthy token placed
against a refresh oracle that rejects, the stored token comes back
unchanged (state untouched) exactly when `expiresAt` is JavaScript-falsy
(absent or zero) or `now + 300` s is strictly before it; and when
`expiresAt` is a usable deadline within the buffer and no refresh token
is stored, the endpoint fails with NoRefreshToken. -/
theorem getToken_fast_path_iff :
    ∀ (st : ServerState) (name : String) (now now2 : Int) (msg : String)
      (a : Account),
    getEntry st.accounts name = some a → a.authenticated = true →
    strTruthy a.token = true →
    ((((getToken st name now now2 (Except.error msg)).1 =
          TokenResult.ok a.token ∧
       (getToken st name now now2 (Except.error msg)).2 = st)
        ↔ (numTruthy a.expiresAt = false ∨
           now + 300000 < a.expiresAt.getD 0))
     ∧ (numTruthy a.expiresAt = true → now + 300000 ≥ a.expiresAt.getD 0 →
         strTruthy a.refreshToken = false →
         (getToken st name now now2 (Except.error msg)).1 =
           TokenResult.noRefreshToken)) := by
  intro st name now now2 msg a hg hauth htok
  constructor
  · constructor
    · intro h
      by_cases hcond : numTruthy a.expiresAt = true ∧
          now + 300000 ≥ a.expiresAt.getD 0
      · exfalso
        by_cases hrt : strTruthy a.refreshToken = true
        · have hval : (getToken st name now now2 (Except.error msg)).1 =
              TokenResult.refreshFailed msg := by
            simp [getToken, hg, hauth, htok, hcond.1, hcond.2, hrt]
          rw [h.1] at hval
          exact TokenResult.noConfusion hval
        · have hval : (getToken st name now now2 (Except.error msg)).1 =
              TokenResult.noRefreshToken := by
            simp [getToken, hg, hauth, htok, hcond.1, hcond.2, hrt]
          rw [h.1] at hval
          exact TokenResult.noConfusion hval
      · rcases not_and_or.mp hcond with h1 | h2
        · exact Or.inl (Bool.not_eq_true _ ▸ Bool.eq_false_iff.mpr
            (fun hh => h1 hh))
        · exact Or.inr (lt_of_not_le h2)
    · intro h
      have hcond : ¬ (numTruthy a.expiresAt = true ∧
          now + 300000 ≥ a.expiresAt.getD 0) := by
        rcases h with h | h
        · simp [h]
        · exact fun hc => absurd hc.2 (not_le.mpr h)
      simp [getToken, hg, hauth, htok, hcond]
  · intro hnum hge hrt
    simp [getToken, hg, hauth, htok, hnum, hge, hrt]

/-- Witness for C5 (amended): a fresh token is returned as stored, and a
stale account without refresh token gets NoRefreshToken. -/
theorem getToken_fast_path_iff_witness :
    (getToken stRunning "a" 0 0 (Except.error "x")).1 =
      TokenResult.ok (some "tok") ∧
    (getToken stStale "a" 1000 1000 (Except.error "x")).1 =
      TokenResult.noRefreshToken := by
  refine ⟨?_, ?_⟩
  · exact ((getToken_fast_path_iff stRunning "a" 0 0 "x" accountFresh rfl rfl
      (by decide)).1.mpr (Or.inr (by decide))).1
  · exact (getToken_fast_path_iff stStale "a" 1000 1000 "x" accountStale rfl
      rfl (by decide)).2 (by decide) (by decide) (by decide)

/-- C1 counterexample: launching for an account whose token is stale by
the Token Lifecycle Manager's freshness rule (`expiresAt = 1`, so any
`now ≥ 0` is past the buffer) and for which no currently valid token is
obtainable (no refresh token stored, so even a willing upstream cannot
refresh: the token endpoint answers NoRefreshToken) still succeeds: the
launch handler checks only `authenticated` and token truthiness and hands
the stale stored token to the process. -/
theorem launch_succeeds_with_stale_unrefreshable_token :
    numTruthy accountStale.expiresAt = true ∧
    (0 : Int) + 300000 ≥ accountStale.expiresAt.getD 0 ∧
    accountStale.refreshToken = none ∧
    (getToken stStale "a" 0 0 (Except.ok refreshRespNoRT)).1 =
      TokenResult.noRefreshToken ∧
    (launchPlayer stStale "a" none none 0 (Except.ok 7)).1 =
      LaunchResult.ok :=
  ⟨rfl, by decide, rfl, rfl, rfl⟩

/-- C1 (amended): launch succeeds only when, in this order, the account
exists, it is authenticated with a truthy stored token (no freshness
check and no refresh — the stored token is handed over as is), and no
registry entry for the name exists; it never succeeds for an
unauthenticated account; with an entry already present it fails with
AlreadyRunning and changes nothing; and launching preserves at most one
registry entry per account name. -/
theorem launch_requires_auth_and_free_slot :
    ∀ (st : ServerState) (name : String) (dn ad : Option String)
      (t : Int) (lo : Except String Nat),
    (((launchPlayer st name dn ad t lo).1 = LaunchResult.ok →
       ∃ a, getEntry st.accounts name = some a ∧ a.authenticated = true ∧
         strTruthy a.token = true ∧ getEntry st.playerInstances name = none ∧
         (getEntry (launchPlayer st name dn ad t
             lo).2.playerInstances name).isSome = true)
     ∧ (∀ a, getEntry st.accounts name = some a → a.authenticated = false →
         (launchPlayer st name dn ad t lo).1 = LaunchResult.notAuthenticated ∧
         (launchPlayer st name dn ad t lo).2 = st)
     ∧ (∀ a, getEntry st.accounts name = some a → a.authenticated = true →
         strTruthy a.token = true →
         (getEntry st.playerInstances name).isSome = true →
         (launchPlayer st name dn ad t lo).1 = LaunchResult.alreadyRunning ∧
         (launchPlayer st name dn ad t lo).2 = st)
     ∧ ((st.playerInstances.map Prod.fst).Nodup →
         ((launchPlayer st name dn ad t
             lo).2.playerInstances.map Prod.fst).Nodup)) := by
  intro st name dn ad t lo
  refine ⟨?_, ?_, ?_, ?_⟩
  · intro h
    cases hg : getEntry st.accounts name with
    | none => simp [launchPlayer, hg] at h
    | some a =>
      by_cases hauth : a.authenticated = true ∧ strTruthy a.token = true
      · by_cases hrun : (getEntry st.playerInstances name).isSome = true
        · simp [launchPlayer, hg, hauth.1, hauth.2, hrun] at h
        · cases lo with
          | error msg => simp [launchPlayer, hg, hauth.1, hauth.2, hrun] at h
          | ok b =>
            refine ⟨a, rfl, hauth.1, hauth.2, ?_, ?_⟩
            · cases hrr : getEntry st.playerInstances name with
              | none => rfl
              | some _ => rw [hrr] at hrun; exact absurd rfl hrun
            · simp [launchPlayer, hg, hauth.1, hauth.2, hrun,
                getEntry_setEntry_self]
      · simp [launchPlayer, hg] at h
        rw [not_and_or] at hauth
        rcases hauth with hh | hh
        · simp [Bool.eq_false_iff.mpr (fun x => hh x)] at h
        · simp [Bool.eq_false_iff.mpr (fun x => hh x)] at h
  · intro a hg hauth
    simp [launchPlayer, hg, hauth]
  · intro a hg hauth htok hrun
    simp [launchPlayer, hg, hauth, htok, hrun]
  · intro hn
    cases hg : getEntry st.accounts name with
    | none => simpa [launchPlayer, hg] using hn
    | some a =>
      by_cases hauth : a.authenticated = true ∧ strTruthy a.token = true
      · by_cases hrun : (getEntry st.playerInstances name).isSome = true
        · simpa [launchPlayer, hg, hauth.1, hauth.2, hrun] using hn
        · have hnone : getEntry st.playerInstances name = none := by
            cases hrr : getEntry st.playerInstances name with
            | none => rfl
            | some _ => rw [hrr] at hrun; exact absurd rfl hrun
          cases lo with
          | error msg =>
            simpa [launchPlayer, hg, hauth.1, hauth.2, hrun] using hn
          | ok b =>
            simp only [launchPlayer, hg, hauth.1, hauth.2, hrun]
            simp only [and_self, not_true_eq_false, if_false,
              Bool.false_eq_true]
            exact nodup_setEntry_of_absent st.playerInstances name _ hnone hn
      · rw [not_and_or] at hauth
        rcases hauth with hh | hh
        · simpa [launchPlayer, hg, Bool.eq_false_iff.mpr (fun x => hh x)]
            using hn
        · simpa [launchPlayer, hg, Bool.eq_false_iff.mpr (fun x => hh x)]
            using hn

/-- Witness for C1 (amended): a second launch for an account with a
running instance observes AlreadyRunning and leaves the state as it
was. -/
theorem launch_requires_auth_and_free_slot_witness :
    (launchPlayer stRunning "a" none none 0 (Except.ok 9)).1 =
      LaunchResult.alreadyRunning ∧
    (launchPlayer stRunning "a" none none 0 (Except.ok 9)).2 = stRunning :=
  (launch_requires_auth_and_free_slot stRunning "a" none none 0
    (Except.ok 9)).2.2.1 accountFresh rfl rfl (by decide) rfl

theorem refreshTokenUpdate_of_not_str (td : Json) (old : Option String)
    (h : ∀ s : String, jsonField td "refresh_token" ≠ some (Json.str s)) :
    refreshTokenUpdate td old = old := by
  unfold refreshTokenUpdate
  cases hj : jsonField td "refresh_token" with
  | none => rfl
  | some j =>
    cases j with
    | str s => exact absurd hj (h s)
    | null => rfl
    | bool b => rfl
    | num n => rfl
    | arr xs => rfl
    | obj fs => rfl

theorem refreshTokenUpdate_changed (td : Json) (old : Option String)
    (h : refreshTokenUpdate td old ≠ old) :
    ∃ s : String, jsonField td "refresh_token" = some (Json.str s) ∧
      refreshTokenUpdate td old = some s := by
  unfold refreshTokenUpdate at h ⊢
  cases hj : jsonField td "refresh_token" with
  | none => rw [hj] at h; exact absurd rfl h
  | some j =>
    rw [hj] at h
    cases j with
    | str s =>
      by_cases hs : s = ""
      · subst hs
        simp at h
      · exact ⟨s, rfl, by simp [hs]⟩
    | null => exact absurd rfl h
    | bool b => exact absurd rfl h
    | num n => exact absurd rfl h
    | arr xs => exact absurd rfl h
    | obj fs => exact absurd rfl h

/-- C7: both persist sites validate the provider response before storing:
the access token is accepted exactly when the `access_token` field is a
string (anything else becomes `null`); a non-numeric or missing
`expires_in` is replaced by 3600; and the stored `expiresAt` always
equals the `Date.now()` of the successful exchange (`now`) or refresh
(`now2`) plus the validated-or-defaulted `expires_in` (in seconds, stored
as milliseconds), with the new record persisted to the store file. -/
theorem provider_response_validation :
    ∀ td : Json,
    ((∀ s : String, validAccessToken td = some s ↔
        jsonField td "access_token" = some (Json.str s))
     ∧ ((∀ n : Int, jsonField td "expires_in" ≠ some (Json.num n)) →
         validExpiresIn td = 3600)
     ∧ (∀ (st : ServerState) (code sname : Option String) (now : Int),
         (callback st code sname now (Except.ok td)).1 = CallbackResult.ok →
         ∃ a', getEntry (callback st code sname now
             (Except.ok td)).2.accounts (sname.getD "") = some a' ∧
           a'.token = validAccessToken td ∧
           a'.expiresAt = some (now + validExpiresIn td * 1000) ∧
           (callback st code sname now (Except.ok td)).2.tokensFile =
             encodeAccounts (callback st code sname now
               (Except.ok td)).2.accounts)
     ∧ (∀ (st : ServerState) (name : String) (now now2 : Int) (a : Account),
         getEntry st.accounts name = some a → a.authenticated = true →
         strTruthy a.token = true → numTruthy a.expiresAt = true →
         now + 300000 ≥ a.expiresAt.getD 0 → strTruthy a.refreshToken = true →
         td ≠ Json.null →
         ((getToken st name now now2 (Except.ok td)).1 =
            TokenResult.ok (validAccessToken td) ∧
          ∃ a', getEntry (getToken st name now now2
              (Except.ok td)).2.accounts name = some a' ∧
            a'.token = validAccessToken td ∧
            a'.expiresAt = some (now2 + validExpiresIn td * 1000) ∧
            (getToken st name now now2 (Except.ok td)).2.tokensFile =
              encodeAccounts (getToken st name now now2
                (Except.ok td)).2.accounts))) := by
  intro td
  refine ⟨?_, ?_, ?_, ?_⟩
  · intro s
    cases hj : jsonField td "access_token" with
    | none => simp [validAccessToken, asString, hj]
    | some j =>
      cases j with
      | str s2 => simp [validAccessToken, asString, hj]
      | null => simp [validAccessToken, asString, hj]
      | bool b => simp [validAccessToken, asString, hj]
      | num n => simp [validAccessToken, asString, hj]
      | arr xs => simp [validAccessToken, asString, hj]
      | obj fs => simp [validAccessToken, asString, hj]
  · intro hnone
    cases hj : jsonField td "expires_in" with
    | none => simp [validExpiresIn, hj]
    | some j =>
      cases j with
      | num n => exact absurd hj (hnone n)
      | null => simp [validExpiresIn, hj]
      | bool b => simp [validExpiresIn, hj]
      | str s => simp [validExpiresIn, hj]
      | arr xs => simp [validExpiresIn, hj]
      | obj fs => simp [validExpiresIn, hj]
  · intro st code sname now h
    by_cases hcs : strTruthy code = true ∧ strTruthy sname = true
    · cases hg : getEntry st.accounts (sname.getD "") with
      | none => simp [callback, hcs.1, hcs.2, hg] at h
      | some account =>
        refine ⟨{ account with
            token := validAccessToken td
            refreshToken := asString (jsonField td "refresh_token")
            authenticated := true
            expiresAt := some (now + validExpiresIn td * 1000) },
          ?_, rfl, rfl, ?_⟩
        · simp [callback, hcs.1, hcs.2, hg, saveTokens, getEntry_setEntry_self]
        · simp [callback, hcs.1, hcs.2, hg, saveTokens]
    · rw [not_and_or] at hcs
      rcases hcs with hh | hh
      · simp [callback, Bool.eq_false_iff.mpr (fun x => hh x)] at h
      · simp [callback, Bool.eq_false_iff.mpr (fun x => hh x)] at h
  · intro st name now now2 a hg hauth htok hnum hge hrt htd
    have hnull := isNullJson_eq_false htd
    refine ⟨?_, ?_⟩
    · simp [getToken, hg, hauth, htok, hnum, hge, hrt, hnull]
    · refine ⟨{ a with
          token := validAccessToken td
          expiresAt := some (now2 + validExpiresIn td * 1000)
          refreshToken := refreshTokenUpdate td a.refreshToken },
        ?_, rfl, rfl, ?_⟩
      · simp [getToken, hg, hauth, htok, hnum, hge, hrt, hnull, saveTokens,
          getEntry_setEntry_self]
      · simp [getToken, hg, hauth, htok, hnum, hge, hrt, hnull, saveTokens]

/-- Witness for C7 on the refresh path with a fully well-formed
response. -/
theorem provider_response_validation_witness :
    (getToken stStaleRT "a" 1000 2000 (Except.ok goodExchangeResp)).1 =
      TokenResult.ok (validAccessToken goodExchangeResp) :=
  ((provider_response_validation goodExchangeResp).2.2.2 stStaleRT "a" 1000
    2000 accountStaleRT rfl rfl (by decide) (by decide) (by decide)
    (by decide) (fun h => Json.noConfusion h)).1

/-- C8: on a successful refresh, the stored `refreshToken` is replaced
only when the response carries a (non-empty) string `refresh_token`
field; when the field is omitted or not a string, the previously stored
refresh token is retained unchanged. -/
theorem refresh_token_retention :
    ∀ (td : Json) (st : ServerState) (name : String) (now now2 : Int)
      (a : Account),
    getEntry st.accounts name = some a → a.authenticated = true →
    strTruthy a.token = true → numTruthy a.expiresAt = true →
    now + 300000 ≥ a.expiresAt.getD 0 → strTruthy a.refreshToken = true →
    td ≠ Json.null →
    ∃ a', getEntry (getToken st name now now2
        (Except.ok td)).2.accounts name = some a' ∧
      ((∀ s : String, jsonField td "refresh_token" ≠ some (Json.str s)) →
        a'.refreshToken = a.refreshToken) ∧
      (a'.refreshToken ≠ a.refreshToken →
        ∃ s : String, jsonField td "refresh_token" = some (Json.str s) ∧
          a'.refreshToken = some s) := by
  intro td st name now now2 a hg hauth htok hnum hge hrt htd
  have hnull := isNullJson_eq_false htd
  refine ⟨{ a with
      token := validAccessToken td
      expiresAt := some (now2 + validExpiresIn td * 1000)
      refreshToken := refreshTokenUpdate td a.refreshToken },
    ?_, ?_, ?_⟩
  · simp [getToken, hg, hauth, htok, hnum, hge, hrt, hnull, saveTokens,
      getEntry_setEntry_self]
  · intro hno
    exact refreshTokenUpdate_of_not_str td a.refreshToken hno
  · intro hch
    exact refreshTokenUpdate_changed td a.refreshToken hch

/-- Witness for C8: a refresh response omitting `refresh_token` leaves
the stored one in place. -/
theorem refresh_token_retention_witness :
    ∃ a', getEntry (getToken stStaleRT "a" 1000 2000
        (Except.ok refreshRespNoRT)).2.accounts "a" = some a' ∧
      a'.refreshToken = some "rt" := by
  obtain ⟨a', h1, h2, h3⟩ := refresh_token_retention refreshRespNoRT stStaleRT
    "a" 1000 2000 accountStaleRT rfl rfl (by decide) (by decide) (by decide)
    (by decide) (fun h => Json.noConfusion h)
  refine ⟨a', h1, ?_⟩
  rw [h2 (fun s h => Option.noConfusion h)]
  rfl

end HousePlayer
